import Mathlib

/-!
Shallow embedding of `timesched.py` (bulletmark/timesched): a one-shot /
repeat timer scheduler built on an external priority event queue.

Modelling conventions:
- Python `datetime.datetime` (naive) is `DateTime`: `day` counts whole days
  from an epoch falling on a Monday (so `weekday = day % 7`, matching
  `datetime.weekday()` with Monday = 0), `tod` is the time-of-day in
  sub-day units (e.g. microseconds); naive day arithmetic adds to `day`
  and keeps `tod`.
- `timestamp()` is the linear encoding `day * DAYUNITS + tod`.
- The `sched` module (external collaborator per the spec) is abstracted to
  a list of pending timer ids; deadline ordering is irrelevant to the
  claims and is left as list order.
- Python exceptions are explicit: pure helpers return `Except Err`,
  state-mutating operations return the post-state paired with
  `Option Err` (Python leaves partial mutations behind when raising).
- User callbacks are modelled as a list of scheduler API commands
  (registrations and cancellations, errors discharged as if caught by the
  user code) followed by an optional uncaught raise (`cbRaises`).
- Character case uses ASCII semantics (`Char.toUpper` / `Char.isUpper`),
  which agree with Python `str.upper` / `str.isupper` on ASCII input.
-/

namespace Timesched

/-- The distinct error conditions raised by the code (Python raises
`ValueError` / `TypeError` with distinct messages; the spec names them
`FormatError`, `InvalidWeekdayMask`, `UnsupportedRepeatKind`,
`AlreadyCancelled`). -/
inductive Err where
  | formatError
  | invalidMask
  | unsupportedRepeat
  | alreadyCancelled
  deriving DecidableEq, Repr

/-- Sub-day time units per day (microseconds). Any value > every
time-of-day works identically; only the linear order on `tod` matters. -/
def DAYUNITS : Nat := 86400000000

/-- Naive `datetime.datetime`: days since a Monday epoch plus
time-of-day. -/
structure DateTime where
  day : Nat
  tod : Nat
  deriving DecidableEq, Repr

/-- `datetime.weekday()`: Monday = 0 .. Sunday = 6. -/
def DateTime.weekday (t : DateTime) : Nat := t.day % 7

/-- `datetime.timestamp()` under the linear encoding. -/
def DateTime.timestamp (t : DateTime) : Nat := t.day * DAYUNITS + t.tod

/-- `DAYS_STRING = 'MTWTFSS'` (timesched.py line 11). -/
def DAYS_STRING : List Char := ['M', 'T', 'W', 'T', 'F', 'S', 'S']

/-- The string branch of `parse_days` (lines 21-25): reject any string
whose uppercasing is not `DAYS_STRING`, else return the indices of the
uppercase positions. -/
def parseDayChars (s : List Char) : Except Err (List Int) :=
  if s.map Char.toUpper ≠ DAYS_STRING then .error .formatError
  else .ok ((s.enum.filter (fun p => p.2.isUpper)).map (fun p => (p.1 : Int)))

/-- The `days` argument accepted by `parse_days` / `_Timer.__init__`:
`None` (default), a string, or a collection of ints. -/
inductive DaysArg where
  | defaultArg
  | strArg (s : List Char)
  | intsArg (l : List Int)

/-- `parse_days` (lines 13-25): `None` becomes `DAYS_STRING`; a non-string
is returned unchanged; a string goes through the template check. -/
def parse_days : DaysArg → Except Err (List Int)
  | .defaultArg => parseDayChars DAYS_STRING
  | .strArg s => parseDayChars s
  | .intsArg l => .ok l

/-- `_Timer.__init__` lines 80-83: build the 7-element boolean day mask
from the parsed day list and reject an all-false mask. -/
def mkDays (arg : DaysArg) : Except Err (List Bool) :=
  match parse_days arg with
  | .error e => .error e
  | .ok l =>
      let days := (List.range 7).map (fun (i : Nat) => l.contains (i : Int))
      if days.any id then .ok days else .error .invalidMask

/-- The `for days in range(days, days + 7)` loop of the `datetime.time`
resolver (lines 65-68): scan for an enabled weekday, advancing `dow`
modulo 7; on loop exhaustion Python leaves `days` at its last value,
i.e. one less than the value the next iteration would have used. -/
def scanLoop (days : List Bool) : Nat → Nat → Nat → Nat
  | _, d, 0 => d - 1
  | dow, d, fuel + 1 =>
      if days.getD dow false then d
      else scanLoop days ((dow + 1) % 7) (d + 1) fuel

/-- The `datetime.time` branch of `_invoke` (lines 55-72), up to the
deadline datetime (line 71): advance a day when the target time-of-day has
passed, then scan for an enabled weekday, and combine the resulting date
with the target time-of-day. -/
def resolveWallclock (days : List Bool) (timev : Nat) (now : DateTime) : DateTime :=
  let dow0 := now.weekday
  let dow := if timev ≤ now.tod then (dow0 + 1) % 7 else dow0
  let start : Nat := if timev ≤ now.tod then 1 else 0
  let d := scanLoop days dow start 7
  { day := now.day + d, tod := timev }

/-- The tagged time specification dispatched on by `_invoke`: numeric
seconds, `timedelta` (already reduced to seconds), `datetime.datetime`,
`datetime.date`, `datetime.time`. -/
inductive TimeSpec where
  | secs (v : Int)
  | delta (v : Int)
  | instant (t : DateTime)
  | date (d : Nat)
  | wallclock (tod : Nat)
  deriving DecidableEq, Repr

/-- The queue entry produced by `_invoke`: `sched.enter` (relative delay)
or `sched.enterabs` (absolute timestamp). -/
inductive Arm where
  | rel (v : Int)
  | abs (ts : Nat)
  deriving DecidableEq, Repr

/-- `_invoke` (lines 28-72): dispatch on the time specification.
`datetime.datetime` / `datetime.date` raise `TypeError` for a repeat
timer; `datetime.date` resolves to midnight of that date. -/
def invoke (spec : TimeSpec) (oneshot : Bool) (days : List Bool) (now : DateTime) :
    Except Err Arm :=
  match spec with
  | .secs v => .ok (.rel v)
  | .delta v => .ok (.rel v)
  | .instant t =>
      if !oneshot then .error .unsupportedRepeat
      else .ok (.abs t.timestamp)
  | .date d =>
      if !oneshot then .error .unsupportedRepeat
      else .ok (.abs (DateTime.mk d 0).timestamp)
  | .wallclock tv => .ok (.abs (resolveWallclock days tv now).timestamp)

/-- A user-callback body: a sequence of scheduler API calls. Errors raised
by these inner calls are treated as caught by the user code; an uncaught
raise is modelled separately by `Timer.cbRaises`. -/
inductive Cmd where
  | reg (oneshot : Bool) (days : DaysArg) (spec : TimeSpec) (cb : List Cmd)
  | cancelCmd (tid : Nat)

/-- `_Timer`: one registration's state. `eventid` records whether a queue
handle is currently held (Python stores the event object; only its
presence is observable). `cbCmds`/`cbRaises` model the user function. -/
structure Timer where
  oneshot : Bool
  days : List Bool
  spec : TimeSpec
  active : Bool
  eventid : Bool
  cbCmds : List Cmd
  cbRaises : Bool

/-- `Scheduler` state: the timers ever successfully constructed (indexed
by id), the pending entries of the underlying event queue (timer ids),
and the `_count` field. -/
structure Sched where
  timers : List Timer
  queue : List Nat
  count : Int

/-- `Scheduler.__init__`: empty queue, `_count = 0`. -/
def Sched.empty : Sched := { timers := [], queue := [], count := 0 }

/-- Number of timer instances currently active (the quantity
`Scheduler.count` documents: 'Return count of active timers'). -/
def activeCount (s : Sched) : Nat := (s.timers.filter (fun t => t.active)).length

/-- Replace timer `tid`'s record. -/
def setTimer (s : Sched) (tid : Nat) (t : Timer) : Sched :=
  { s with timers := s.timers.set tid t }

/-- `_Timer.__init__` via `Scheduler.oneshot/repeat[_on_days]`
(lines 76-90): validate the day mask (raising leaves the scheduler
untouched), then increment `_count` (line 88), then `_invoke` (line 90) —
if `_invoke` raises, the exception propagates with `_count` already
incremented and the half-built timer discarded; otherwise the timer is
recorded with its queue handle. -/
def register (s : Sched) (now : DateTime) (oneshot : Bool) (daysArg : DaysArg)
    (spec : TimeSpec) (cbCmds : List Cmd) (cbRaises : Bool) : Sched × Option Err :=
  match mkDays daysArg with
  | .error e => (s, some e)
  | .ok ds =>
      let s1 : Sched := { s with count := s.count + 1 }
      match invoke spec oneshot ds now with
      | .error e => (s1, some e)
      | .ok _ =>
          ({ s1 with
              timers := s1.timers ++
                [{ oneshot := oneshot, days := ds, spec := spec, active := true,
                   eventid := true, cbCmds := cbCmds, cbRaises := cbRaises }],
              queue := s1.queue ++ [s.timers.length] }, none)

/-- `_Timer.cancel` (lines 104-112): raise `AlreadyCancelled` when already
inactive; otherwise deactivate, decrement `_count`, and remove the queue
entry when a handle is held (`eventid` is left stale, as in the source). -/
def cancelTimer (s : Sched) (tid : Nat) : Sched × Option Err :=
  match s.timers[tid]? with
  | none => (s, none)
  | some t =>
      if !t.active then (s, some .alreadyCancelled)
      else
        let s1 := { setTimer s tid { t with active := false } with count := s.count - 1 }
        if t.eventid then ({ s1 with queue := s1.queue.erase tid }, none)
        else (s1, none)

/-- `_Timer.cb` line 94: clear the queue handle before invoking the user
function. -/
def cbClear (s : Sched) (tid : Nat) : Sched :=
  match s.timers[tid]? with
  | none => s
  | some t => setTimer s tid { t with eventid := false }

/-- `_Timer.cb` lines 96-102, after the user function returns: when still
active, a one-shot deactivates and decrements `_count`; a repeater
re-resolves its stored time specification at the current time and stores
the new queue handle. (The `_invoke` error branch is unreachable: a
repeat timer with a `datetime`/`date` specification is never
constructed.) -/
def cbFinish (now : DateTime) (s : Sched) (tid : Nat) : Sched :=
  match s.timers[tid]? with
  | none => s
  | some t =>
      if t.active then
        if t.oneshot then
          { setTimer s tid { t with active := false } with count := s.count - 1 }
        else
          match invoke t.spec t.oneshot t.days now with
          | .ok _ =>
              { setTimer s tid { t with eventid := true } with queue := s.queue ++ [tid] }
          | .error _ => s
      else s

/-- Execute one user-callback command (errors discharged as caught). -/
def execCmd (now : DateTime) (s : Sched) : Cmd → Sched
  | .reg oneshot days spec cb => (register s now oneshot days spec cb false).1
  | .cancelCmd tid => (cancelTimer s tid).1

/-- Execute a callback body in order. -/
def execCmds (now : DateTime) : Sched → List Cmd → Sched
  | s, [] => s
  | s, c :: cs => execCmds now (execCmd now s c) cs

/-- `_Timer.cb` (lines 92-102) as invoked by the run loop after popping
this timer's entry: clear the handle, run the user function exactly once,
then either propagate its uncaught raise (`true` flag) or perform the
retire / re-arm step. -/
def fire (now : DateTime) (s : Sched) (tid : Nat) : Sched × Bool :=
  match s.timers[tid]? with
  | none => (s, false)
  | some t =>
      let s1 := cbClear s tid
      let s2 := execCmds now s1 t.cbCmds
      if t.cbRaises then (s2, true) else (cbFinish now s2 tid, false)

/-- `Scheduler.run` via `sched.run`: repeatedly pop the next queue entry
and fire it; an uncaught callback exception terminates the loop. Returns
the final state, the list of timer ids fired, and whether an exception
propagated out. Fuel bounds the number of firings (repeat timers run
forever). -/
def run (now : DateTime) : Sched → Nat → Sched × List Nat × Bool
  | s, 0 => (s, [], false)
  | s, fuel + 1 =>
      match s.queue with
      | [] => (s, [], false)
      | tid :: rest =>
          let r := fire now { s with queue := rest } tid
          if r.2 then (r.1, [tid], true)
          else
            let r2 := run now r.1 fuel
            (r2.1, tid :: r2.2.1, r2.2.2)

end Timesched

namespace Timesched

/-! ### Shared list lemmas -/

theorem getElem?_set_self {l : List Timer} {i : Nat} {t u : Timer}
    (h : l[i]? = some t) : (l.set i u)[i]? = some u := by
  have hi : i < l.length := by
    by_contra hge
    rw [List.getElem?_eq_none (by omega)] at h
    exact Option.noConfusion h
  rw [List.getElem?_set_self (by omega)]

theorem getElem?_set_ne {l : List Timer} {i j : Nat} {u : Timer}
    (h : i ≠ j) : (l.set j u)[i]? = l[i]? := by
  rw [List.getElem?_set_ne (by omega)]

end Timesched

namespace Timesched

/-- C3: with the Wednesday-only mask, a Wednesday 11:00 "now" and a 10:30
target resolve to 10:30 next Wednesday, exactly 7 days later (not today,
not tomorrow); a Tuesday 09:00 "now" with the same mask and target
resolves to 10:30 the next day (Wednesday). (Day 2 is a Wednesday, day 1
a Tuesday; times-of-day are in seconds here — only their order matters.) -/
theorem wallclock_wednesday_only_cases :
    (DateTime.mk 2 39600).weekday = 2 ∧
    resolveWallclock [false, false, true, false, false, false, false] 37800
      (DateTime.mk 2 39600) = DateTime.mk (2 + 7) 37800 ∧
    (DateTime.mk (2 + 7) 37800).weekday = 2 ∧
    (DateTime.mk 1 32400).weekday = 1 ∧
    resolveWallclock [false, false, true, false, false, false, false] 37800
      (DateTime.mk 1 32400) = DateTime.mk (1 + 1) 37800 ∧
    (DateTime.mk (1 + 1) 37800).weekday = 2 := by
  decide

/-- C6: a repeat registration with an absolute instant or a calendar date
is rejected with `UnsupportedRepeatKind` — also synchronously at the
registration call, which leaves no timer behind — while the same
specifications are accepted for one-shot timers, a calendar date
resolving to midnight of that date. -/
theorem repeat_restrictions (t : DateTime) (d : Nat) (days : List Bool)
    (now : DateTime) (s : Sched) (cb : List Cmd) (r : Bool) :
    invoke (.instant t) false days now = .error .unsupportedRepeat ∧
    invoke (.date d) false days now = .error .unsupportedRepeat ∧
    invoke (.instant t) true days now = .ok (.abs t.timestamp) ∧
    invoke (.date d) true days now = .ok (.abs (DateTime.mk d 0).timestamp) ∧
    (register s now false .defaultArg (.instant t) cb r).2 = some .unsupportedRepeat ∧
    (register s now false .defaultArg (.date d) cb r).2 = some .unsupportedRepeat ∧
    (register s now false .defaultArg (.instant t) cb r).1.timers = s.timers ∧
    (register s now false .defaultArg (.date d) cb r).1.timers = s.timers := by
  refine ⟨rfl, rfl, rfl, rfl, ?_, ?_, ?_, ?_⟩ <;> rfl

/-- C2 (code bug): `_Timer.__init__` increments `Scheduler._count`
(line 88) before `_invoke` can raise (line 90), so a failed repeat
registration with a `datetime.datetime` specification leaves `count()`
at 1 while zero timers are active — the invariant
`count = number of active timers` is broken by a registration whose
construction raises. -/
theorem count_leak_on_failed_repeat_registration :
    (register Sched.empty (DateTime.mk 0 0) false .defaultArg
      (.instant (DateTime.mk 0 0)) [] false).2 = some .unsupportedRepeat ∧
    (register Sched.empty (DateTime.mk 0 0) false .defaultArg
      (.instant (DateTime.mk 0 0)) [] false).1.count = 1 ∧
    activeCount (register Sched.empty (DateTime.mk 0 0) false .defaultArg
      (.instant (DateTime.mk 0 0)) [] false).1 = 0 := by
  exact ⟨rfl, rfl, rfl⟩

/-- Reduction of `cancelTimer` once the timer lookup is known. -/
theorem cancelTimer_eq (s : Sched) (tid : Nat) (t : Timer)
    (h : s.timers[tid]? = some t) :
    cancelTimer s tid =
      if !t.active then (s, some .alreadyCancelled)
      else
        let s1 := { setTimer s tid { t with active := false } with count := s.count - 1 }
        if t.eventid then ({ s1 with queue := s1.queue.erase tid }, none)
        else (s1, none) := by
  unfold cancelTimer
  rw [h]

/-- C8: `cancel` raises `AlreadyCancelled` exactly when the timer is
already inactive; the failing call leaves the whole scheduler state
(including the active flag and the count) unchanged; cancelling twice
raises on the second call only. -/
theorem cancel_already_cancelled_iff (s : Sched) (tid : Nat) (t : Timer)
    (h : s.timers[tid]? = some t) :
    ((cancelTimer s tid).2 = some .alreadyCancelled ↔ t.active = false) ∧
    (t.active = false → cancelTimer s tid = (s, some .alreadyCancelled)) ∧
    (t.active = true →
      (cancelTimer s tid).2 = none ∧
      cancelTimer (cancelTimer s tid).1 tid =
        ((cancelTimer s tid).1, some .alreadyCancelled)) := by
  cases ha : t.active with
  | false =>
      rw [cancelTimer_eq s tid t h]
      simp [ha]
  | true =>
      have h2 : ((cancelTimer s tid).1).timers[tid]? = some { t with active := false } := by
        rw [cancelTimer_eq s tid t h]
        cases he : t.eventid <;> simp [ha, he, setTimer, getElem?_set_self h]
      have hnone : (cancelTimer s tid).2 = none := by
        rw [cancelTimer_eq s tid t h]
        cases he : t.eventid <;> simp [ha, he]
      refine ⟨?_, ?_, ?_⟩
      · rw [hnone]
        simp [ha]
      · intro hc
        exact absurd hc (by simp [ha])
      · intro _
        refine ⟨hnone, ?_⟩
        rw [cancelTimer_eq (cancelTimer s tid).1 tid { t with active := false } h2]
        simp

/-- Witness for C8 at a concrete one-timer scheduler. -/
theorem cancel_already_cancelled_iff_witness :
    ((cancelTimer (Sched.mk [Timer.mk true [true] (.secs 1) true true [] false] [0] 1)
        0).2 = some .alreadyCancelled ↔
      (Timer.mk true [true] (.secs 1) true true [] false).active = false) ∧
    ((Timer.mk true [true] (.secs 1) true true [] false).active = false →
      cancelTimer (Sched.mk [Timer.mk true [true] (.secs 1) true true [] false] [0] 1) 0 =
        (Sched.mk [Timer.mk true [true] (.secs 1) true true [] false] [0] 1,
          some .alreadyCancelled)) ∧
    ((Timer.mk true [true] (.secs 1) true true [] false).active = true →
      (cancelTimer (Sched.mk [Timer.mk true [true] (.secs 1) true true [] false] [0] 1)
          0).2 = none ∧
      cancelTimer
          (cancelTimer (Sched.mk [Timer.mk true [true] (.secs 1) true true [] false] [0] 1)
            0).1 0 =
        ((cancelTimer (Sched.mk [Timer.mk true [true] (.secs 1) true true [] false] [0] 1)
            0).1, some .alreadyCancelled)) :=
  cancel_already_cancelled_iff
    (Sched.mk [Timer.mk true [true] (.secs 1) true true [] false] [0] 1) 0
    (Timer.mk true [true] (.secs 1) true true [] false) rfl

end Timesched

namespace Timesched

/-- Reduction of `cbClear` once the timer lookup is known. -/
theorem cbClear_eq (s : Sched) (tid : Nat) (t : Timer)
    (h : s.timers[tid]? = some t) :
    cbClear s tid = setTimer s tid { t with eventid := false } := by
  unfold cbClear
  rw [h]

/-- Reduction of `cbFinish` once the timer lookup is known. -/
theorem cbFinish_eq (now : DateTime) (s : Sched) (tid : Nat) (t : Timer)
    (h : s.timers[tid]? = some t) :
    cbFinish now s tid =
      if t.active then
        if t.oneshot then
          { setTimer s tid { t with active := false } with count := s.count - 1 }
        else
          match invoke t.spec t.oneshot t.days now with
          | .ok _ =>
              { setTimer s tid { t with eventid := true } with queue := s.queue ++ [tid] }
          | .error _ => s
      else s := by
  unfold cbFinish
  rw [h]

/-- Reduction of `fire` once the timer lookup is known. -/
theorem fire_eq (now : DateTime) (s : Sched) (tid : Nat) (t : Timer)
    (h : s.timers[tid]? = some t) :
    fire now s tid =
      if t.cbRaises then (execCmds now (cbClear s tid) t.cbCmds, true)
      else (cbFinish now (execCmds now (cbClear s tid) t.cbCmds) tid, false) := by
  unfold fire
  rw [h]

/-- C4: firing clears the queue handle before the user callback body runs
(and the callback runs exactly once, between the clear and the
retire/re-arm step, as the `fire` decomposition shows); afterwards, on
the then-current state: a still-active one-shot is marked inactive with
the count decremented; a still-active repeater re-resolves its stored
time specification at the current time, stores the new handle and
re-enters the queue; a timer already deactivated (e.g. cancelled from
inside its own callback) is left untouched — no re-arm. -/
theorem fire_semantics (now : DateTime) (s : Sched) (tid : Nat) (t : Timer)
    (h : s.timers[tid]? = some t) :
    (fire now s tid =
      if t.cbRaises then (execCmds now (cbClear s tid) t.cbCmds, true)
      else (cbFinish now (execCmds now (cbClear s tid) t.cbCmds) tid, false)) ∧
    ((cbClear s tid).timers[tid]? = some { t with eventid := false }) ∧
    ((cbClear s tid).count = s.count) ∧
    (t.active = true → t.oneshot = true →
      cbFinish now s tid =
        { setTimer s tid { t with active := false } with count := s.count - 1 }) ∧
    (t.active = true → t.oneshot = false →
      ∀ a, invoke t.spec t.oneshot t.days now = .ok a →
        cbFinish now s tid =
          { setTimer s tid { t with eventid := true } with queue := s.queue ++ [tid] }) ∧
    (t.active = false → cbFinish now s tid = s) := by
  refine ⟨fire_eq now s tid t h, ?_, ?_, ?_, ?_, ?_⟩
  · rw [cbClear_eq s tid t h]
    exact getElem?_set_self h
  · rw [cbClear_eq s tid t h]
    rfl
  · intro ha ho
    rw [cbFinish_eq now s tid t h, ha, ho]
    rfl
  · intro ha ho a hi
    rw [cbFinish_eq now s tid t h]
    rw [ho] at hi
    rw [ha, ho, hi]
    rfl
  · intro ha
    rw [cbFinish_eq now s tid t h, ha]
    rfl

/-- Witness for C4: a one-shot timer and a repeat timer at a concrete
scheduler state. -/
theorem fire_semantics_witness :
    (cbClear (Sched.mk [Timer.mk true [true] (.secs 2) true true [] false] [0] 1)
        0).timers[0]? =
      some { Timer.mk true [true] (.secs 2) true true [] false with eventid := false } ∧
    cbFinish (DateTime.mk 0 0)
        (Sched.mk [Timer.mk true [true] (.secs 2) true true [] false] [] 1) 0 =
      { setTimer (Sched.mk [Timer.mk true [true] (.secs 2) true true [] false] [] 1) 0
          { Timer.mk true [true] (.secs 2) true true [] false with active := false } with
        count := (1 : Int) - 1 } ∧
    cbFinish (DateTime.mk 0 0)
        (Sched.mk [Timer.mk false [true] (.secs 2) true false [] false] [] 1) 0 =
      { setTimer (Sched.mk [Timer.mk false [true] (.secs 2) true false [] false] [] 1) 0
          { Timer.mk false [true] (.secs 2) true false [] false with eventid := true } with
        queue := [] ++ [0] } ∧
    cbFinish (DateTime.mk 0 0)
        (Sched.mk [Timer.mk false [true] (.secs 2) false false [] false] [] 0) 0 =
      Sched.mk [Timer.mk false [true] (.secs 2) false false [] false] [] 0 :=
  ⟨(fire_semantics (DateTime.mk 0 0)
      (Sched.mk [Timer.mk true [true] (.secs 2) true true [] false] [0] 1)
      0 (Timer.mk true [true] (.secs 2) true true [] false) rfl).2.1,
   (fire_semantics (DateTime.mk 0 0)
      (Sched.mk [Timer.mk true [true] (.secs 2) true true [] false] [] 1)
      0 (Timer.mk true [true] (.secs 2) true true [] false) rfl).2.2.2.1 rfl rfl,
   (fire_semantics (DateTime.mk 0 0)
      (Sched.mk [Timer.mk false [true] (.secs 2) true false [] false] [] 1)
      0 (Timer.mk false [true] (.secs 2) true false [] false) rfl).2.2.2.2.1 rfl rfl
      (.rel 2) rfl,
   (fire_semantics (DateTime.mk 0 0)
      (Sched.mk [Timer.mk false [true] (.secs 2) false false [] false] [] 0)
      0 (Timer.mk false [true] (.secs 2) false false [] false) rfl).2.2.2.2.2 rfl⟩

/-- C9: a user callback that raises propagates out of `run` (the loop
stops with the exception flag set), leaving the timer with its queue
handle cleared, still active, not re-armed, and the scheduler count
unchanged by that firing. -/
theorem callback_exception_propagation (now : DateTime) (s : Sched) (tid : Nat)
    (t : Timer) (rest : List Nat) (fuel : Nat)
    (h : s.timers[tid]? = some t) (hr : t.cbRaises = true) (hc : t.cbCmds = [])
    (ha : t.active = true) (hq : s.queue = tid :: rest) :
    run now s (fuel + 1) =
      (setTimer { s with queue := rest } tid { t with eventid := false }, [tid], true) ∧
    (setTimer { s with queue := rest } tid { t with eventid := false }).count = s.count ∧
    (setTimer { s with queue := rest } tid { t with eventid := false }).timers[tid]? =
      some { t with eventid := false } ∧
    ({ t with eventid := false }).active = true ∧
    ({ t with eventid := false }).eventid = false ∧
    (setTimer { s with queue := rest } tid { t with eventid := false }).queue = rest := by
  have h0 : ({ s with queue := rest } : Sched).timers[tid]? = some t := h
  have hfire : fire now { s with queue := rest } tid =
      (setTimer { s with queue := rest } tid { t with eventid := false }, true) := by
    rw [fire_eq now { s with queue := rest } tid t h0,
      cbClear_eq { s with queue := rest } tid t h0, hc, hr]
    rfl
  refine ⟨?_, rfl, getElem?_set_self h0, by simp [ha], rfl, rfl⟩
  unfold run
  rw [hq]
  simp [hfire]

/-- Witness for C9: a single raising timer at the head of the queue. -/
theorem callback_exception_propagation_witness :
    run (DateTime.mk 0 0)
        (Sched.mk [Timer.mk true [true] (.secs 2) true true [] true] [0] 1) (3 + 1) =
      (setTimer
          { Sched.mk [Timer.mk true [true] (.secs 2) true true [] true] [0] 1 with
            queue := ([] : List Nat) } 0
          { Timer.mk true [true] (.secs 2) true true [] true with eventid := false },
        [0], true) :=
  (callback_exception_propagation (DateTime.mk 0 0)
      (Sched.mk [Timer.mk true [true] (.secs 2) true true [] true] [0] 1) 0
      (Timer.mk true [true] (.secs 2) true true [] true) [] 3
      rfl rfl rfl rfl rfl).1

end Timesched


namespace Timesched

/-- Indexing a 7-element mapped range. -/
theorem getD_range_map (f : Nat → Bool) (i : Nat) (h : i < 7) :
    ((List.range 7).map f).getD i false = f i := by
  rw [List.getD_eq_getElem?_getD, List.getElem?_map, List.getElem?_range h]
  rfl

/-- Membership in the uppercase-position list produced by the string
branch of `parse_days` is exactly "the i-th character is uppercase". -/
theorem mem_upperIdx (s : List Char) (i : Nat) (hi : i < s.length) :
    ((i : Int) ∈ (s.enum.filter (fun p => p.2.isUpper)).map (fun p => (p.1 : Int)))
      ↔ (s.getD i ' ').isUpper = true := by
  simp only [List.mem_map, List.mem_filter, List.mem_enum_iff_getElem?]
  constructor
  · rintro ⟨⟨j, c⟩, ⟨hg, hu⟩, hj⟩
    have hji : j = i := by exact_mod_cast hj
    subst hji
    rw [List.getD_eq_getElem?_getD, hg]
    exact hu
  · intro hu
    refine ⟨(i, s.getD i ' '), ⟨?_, hu⟩, rfl⟩
    rw [List.getElem?_eq_getElem hi]
    simp [List.getD_eq_getElem?_getD, List.getElem?_eq_getElem hi]

/-- `mkDays` on a template-matching string with at least one uppercase
position succeeds with the membership mask. -/
theorem mkDays_str_ok (s : List Char) (hs : s.map Char.toUpper = DAYS_STRING)
    (i0 : Nat) (hi0 : i0 < 7) (hu0 : (s.getD i0 ' ').isUpper = true) :
    mkDays (.strArg s) = .ok ((List.range 7).map fun (i : Nat) =>
      ((s.enum.filter fun p => p.2.isUpper).map (fun p => (p.1 : Int))).contains
        (i : Int)) := by
  have hlen : s.length = 7 := by simpa using congrArg List.length hs
  have hne : ¬(s.map Char.toUpper ≠ DAYS_STRING) := fun hcon => hcon hs
  have hcontains :
      ((s.enum.filter fun p => p.2.isUpper).map (fun p => (p.1 : Int))).contains
        ((i0 : Nat) : Int) = true :=
    List.elem_iff.mpr ((mem_upperIdx s i0 (by omega)).mpr hu0)
  have hany : (((List.range 7).map fun (i : Nat) =>
      ((s.enum.filter fun p => p.2.isUpper).map (fun p => (p.1 : Int))).contains
        (i : Int)).any id) = true := by
    apply List.any_eq_true.mpr
    exact ⟨_, List.mem_map.mpr ⟨i0, List.mem_range.mpr hi0, rfl⟩, hcontains⟩
  have hp : parse_days (.strArg s) =
      .ok ((s.enum.filter (fun p => p.2.isUpper)).map (fun p => (p.1 : Int))) := by
    show parseDayChars s = _
    unfold parseDayChars
    rw [if_neg hne]
  unfold mkDays
  rw [hp]
  dsimp only
  rw [if_pos hany]

/-- `mkDays` on a template-matching string with no uppercase position
raises the invalid-mask error. -/
theorem mkDays_str_err (s : List Char) (hs : s.map Char.toUpper = DAYS_STRING)
    (hall : ∀ i, i < 7 → (s.getD i ' ').isUpper = false) :
    mkDays (.strArg s) = .error .invalidMask := by
  have hlen : s.length = 7 := by simpa using congrArg List.length hs
  have hne : ¬(s.map Char.toUpper ≠ DAYS_STRING) := fun hcon => hcon hs
  have hany : (((List.range 7).map fun (i : Nat) =>
      ((s.enum.filter fun p => p.2.isUpper).map (fun p => (p.1 : Int))).contains
        (i : Int)).any id) = false := by
    rw [← Bool.not_eq_true]
    intro hc
    obtain ⟨b, hb, hbt⟩ := List.any_eq_true.mp hc
    obtain ⟨i, hir, rfl⟩ := List.mem_map.mp hb
    have hi7 := List.mem_range.mp hir
    have := (mem_upperIdx s i (by omega)).mp (List.elem_iff.mp hbt)
    rw [hall i hi7] at this
    exact Bool.noConfusion this
  have hp : parse_days (.strArg s) =
      .ok ((s.enum.filter (fun p => p.2.isUpper)).map (fun p => (p.1 : Int))) := by
    show parseDayChars s = _
    unfold parseDayChars
    rw [if_neg hne]
  unfold mkDays
  rw [hp]
  dsimp only
  rw [if_neg (by rw [hany]; exact Bool.noConfusion)]

/-- C5: a weekday string is accepted exactly when its uppercasing matches
the `MTWTFSS` template (any other string raises the format error); an
accepted string enables exactly the days at its uppercase positions, so
the all-uppercase template enables all seven days; an accepted string
with zero uppercase positions (e.g. all-lowercase) raises the
invalid-mask error at timer construction, which leaves the scheduler
untouched. -/
theorem day_string_parsing :
    (∀ s : List Char,
      (∃ l, parse_days (.strArg s) = .ok l) ↔ s.map Char.toUpper = DAYS_STRING) ∧
    (∀ s : List Char, s.map Char.toUpper ≠ DAYS_STRING →
      parse_days (.strArg s) = .error .formatError) ∧
    (∀ s : List Char, s.map Char.toUpper = DAYS_STRING →
      ∀ i0, i0 < 7 → (s.getD i0 ' ').isUpper = true →
      ∃ ds, mkDays (.strArg s) = .ok ds ∧ ds.length = 7 ∧
        ∀ i, i < 7 → ds.getD i false = (s.getD i ' ').isUpper) ∧
    (∀ s : List Char, s.map Char.toUpper = DAYS_STRING →
      (∀ i, i < 7 → (s.getD i ' ').isUpper = false) →
      mkDays (.strArg s) = .error .invalidMask) ∧
    (mkDays (.strArg ['M', 'T', 'W', 'T', 'F', 'S', 'S']) =
      .ok [true, true, true, true, true, true, true]) ∧
    (mkDays (.strArg ['m', 't', 'w', 't', 'f', 's', 's']) = .error .invalidMask) ∧
    (∀ s now spec cb r, register s now true (.strArg ['m', 't', 'w', 't', 'f', 's', 's'])
        spec cb r = (s, some .invalidMask)) := by
  refine ⟨?_, ?_, ?_, mkDays_str_err, rfl, rfl, ?_⟩
  · intro s
    by_cases hs : s.map Char.toUpper = DAYS_STRING <;>
      simp [parse_days, parseDayChars, hs]
  · intro s hs
    simp [parse_days, parseDayChars, hs]
  · intro s hs i0 hi0 hu0
    have hlen : s.length = 7 := by simpa using congrArg List.length hs
    refine ⟨_, mkDays_str_ok s hs i0 hi0 hu0, by simp, ?_⟩
    intro i hi
    rw [getD_range_map _ i hi]
    cases hu : (s.getD i ' ').isUpper with
    | false =>
        rw [Bool.eq_false_iff]
        intro hc
        have := (mem_upperIdx s i (by omega)).mp (List.elem_iff.mp hc)
        rw [hu] at this
        exact Bool.noConfusion this
    | true =>
        exact List.elem_iff.mpr ((mem_upperIdx s i (by omega)).mpr hu)
  · intro s now spec cb r
    rfl

/-- Witness for C5 at the concrete strings of the claim: the template
itself, a 6-character string, a mixed-case string, and the all-lowercase
string. -/
theorem day_string_parsing_witness :
    ((∃ l, parse_days (.strArg ['M', 'T', 'W', 'T', 'F', 'S', 'S']) = .ok l) ↔
      ['M', 'T', 'W', 'T', 'F', 'S', 'S'].map Char.toUpper = DAYS_STRING) ∧
    parse_days (.strArg ['M', 'T', 'W', 'T', 'F', 'S']) = .error .formatError ∧
    (∃ ds, mkDays (.strArg ['m', 'T', 'w', 't', 'f', 's', 's']) = .ok ds ∧
      ds.length = 7 ∧
      ∀ i, i < 7 →
        ds.getD i false = (['m', 'T', 'w', 't', 'f', 's', 's'].getD i ' ').isUpper) ∧
    mkDays (.strArg ['m', 't', 'w', 't', 'f', 's', 's']) = .error .invalidMask ∧
    register Sched.empty (DateTime.mk 0 0) true
        (.strArg ['m', 't', 'w', 't', 'f', 's', 's']) (.secs 1) [] false =
      (Sched.empty, some .invalidMask) :=
  ⟨day_string_parsing.1 ['M', 'T', 'W', 'T', 'F', 'S', 'S'],
   day_string_parsing.2.1 ['M', 'T', 'W', 'T', 'F', 'S'] (by decide),
   day_string_parsing.2.2.1 ['m', 'T', 'w', 't', 'f', 's', 's'] (by decide) 1
     (by decide) (by decide),
   day_string_parsing.2.2.2.1 ['m', 't', 'w', 't', 'f', 's', 's'] (by decide)
     (by decide),
   day_string_parsing.2.2.2.2.2.2 Sched.empty (DateTime.mk 0 0) (.secs 1) [] false⟩

end Timesched

namespace Timesched

/-- `mkDays` on an explicit int collection with at least one in-range
index succeeds with the membership mask (out-of-range values silently
ignored). -/
theorem mkDays_ints_ok (l : List Int) (x : Int) (hx : x ∈ l) (h0 : 0 ≤ x)
    (h7 : x < 7) :
    mkDays (.intsArg l) =
      .ok ((List.range 7).map fun (i : Nat) => l.contains (i : Int)) := by
  have hany : (((List.range 7).map fun (i : Nat) => l.contains (i : Int)).any id)
      = true := by
    apply List.any_eq_true.mpr
    refine ⟨_, List.mem_map.mpr ⟨x.toNat, List.mem_range.mpr (by omega), rfl⟩, ?_⟩
    show l.contains ((x.toNat : Nat) : Int) = true
    rw [show ((x.toNat : Nat) : Int) = x by omega]
    exact List.elem_iff.mpr hx
  unfold mkDays
  rw [show parse_days (DaysArg.intsArg l) = .ok l from rfl]
  dsimp only
  rw [if_pos hany]

/-- `mkDays` on an explicit int collection with no in-range index raises
the invalid-mask error. -/
theorem mkDays_ints_err (l : List Int) (h : ∀ x ∈ l, ¬(0 ≤ x ∧ x < 7)) :
    mkDays (.intsArg l) = .error .invalidMask := by
  have hany : (((List.range 7).map fun (i : Nat) => l.contains (i : Int)).any id)
      = false := by
    rw [← Bool.not_eq_true]
    intro hc
    obtain ⟨b, hb, hbt⟩ := List.any_eq_true.mp hc
    obtain ⟨i, hir, rfl⟩ := List.mem_map.mp hb
    have hi7 := List.mem_range.mp hir
    have hmem : ((i : Nat) : Int) ∈ l := List.elem_iff.mp hbt
    exact h _ hmem ⟨by omega, by omega⟩
  unfold mkDays
  rw [show parse_days (DaysArg.intsArg l) = .ok l from rfl]
  dsimp only
  rw [if_neg (by rw [hany]; exact Bool.noConfusion)]

/-- C10: an explicit weekday-index collection ignores out-of-range values
rather than rejecting them: the mask enables exactly the in-range
indices, registration succeeds whenever at least one supplied index lies
in 0..6, and raises the invalid-mask error (leaving the scheduler
unchanged) only when no supplied index is in range. -/
theorem int_days_out_of_range_ignored (l : List Int) :
    (∀ x ∈ l, 0 ≤ x → x < 7 →
      ∃ ds, mkDays (.intsArg l) = .ok ds ∧ ds.length = 7 ∧
        ∀ i : Nat, i < 7 → (ds.getD i false = true ↔ (i : Int) ∈ l)) ∧
    ((∀ x ∈ l, ¬(0 ≤ x ∧ x < 7)) → mkDays (.intsArg l) = .error .invalidMask) ∧
    (∀ s now v cb r x, x ∈ l → 0 ≤ x → x < 7 →
      (register s now true (.intsArg l) (.secs v) cb r).2 = none) ∧
    (∀ s now b spec cb r, (∀ x ∈ l, ¬(0 ≤ x ∧ x < 7)) →
      register s now b (.intsArg l) spec cb r = (s, some .invalidMask)) := by
  refine ⟨?_, mkDays_ints_err l, ?_, ?_⟩
  · intro x hx h0 h7
    refine ⟨_, mkDays_ints_ok l x hx h0 h7, by simp, ?_⟩
    intro i hi
    rw [getD_range_map _ i hi]
    exact List.elem_iff
  · intro s now v cb r x hx h0 h7
    unfold register
    rw [mkDays_ints_ok l x hx h0 h7]
    rfl
  · intro s now b spec cb r hall
    unfold register
    rw [mkDays_ints_err l hall]

/-- Witness for C10: the list [9, 3, -2] has exactly one in-range index
(3); the list [7, -1] has none. -/
theorem int_days_out_of_range_ignored_witness :
    (∃ ds, mkDays (.intsArg [9, 3, -2]) = .ok ds ∧ ds.length = 7 ∧
      ∀ i : Nat, i < 7 → (ds.getD i false = true ↔ (i : Int) ∈ [9, 3, -2])) ∧
    mkDays (.intsArg [7, -1]) = .error .invalidMask ∧
    (register Sched.empty (DateTime.mk 0 0) true (.intsArg [9, 3, -2]) (.secs 1)
      [] false).2 = none ∧
    register Sched.empty (DateTime.mk 0 0) true (.intsArg [7, -1]) (.secs 1)
      [] false = (Sched.empty, some .invalidMask) :=
  ⟨(int_days_out_of_range_ignored [9, 3, -2]).1 3 (by decide) (by decide) (by decide),
   (int_days_out_of_range_ignored [7, -1]).2.1 (by decide),
   (int_days_out_of_range_ignored [9, 3, -2]).2.2.1 Sched.empty (DateTime.mk 0 0) 1
     [] false 3 (by decide) (by decide) (by decide),
   (int_days_out_of_range_ignored [7, -1]).2.2.2 Sched.empty (DateTime.mk 0 0) true
     (.secs 1) [] false (by decide)⟩

end Timesched

namespace Timesched

/-- The scan loop stops at the first enabled weekday: if the `k`-th day
(counting wrapped from `dow`) is the first enabled one and `k` is within
the remaining fuel, the loop returns the accumulator plus `k`. -/
theorem scanLoop_hit (days : List Bool) :
    ∀ (fuel dow d k : Nat), dow < 7 → k < fuel →
      days.getD ((dow + k) % 7) false = true →
      (∀ j, j < k → days.getD ((dow + j) % 7) false = false) →
      scanLoop days dow d fuel = d + k := by
  intro fuel
  induction fuel with
  | zero => intro dow d k _ hk; omega
  | succ n ih =>
      intro dow d k hdow hk hhit hmin
      cases k with
      | zero =>
          rw [show (dow + 0) % 7 = dow by omega] at hhit
          unfold scanLoop
          rw [if_pos hhit]
          omega
      | succ k =>
          have h0 : days.getD dow false = false := by
            have := hmin 0 (Nat.succ_pos k)
            rwa [show (dow + 0) % 7 = dow by omega] at this
          unfold scanLoop
          rw [if_neg (by rw [h0]; exact Bool.noConfusion)]
          have hrec := ih ((dow + 1) % 7) (d + 1) k (by omega) (by omega)
            (by rwa [show ((dow + 1) % 7 + k) % 7 = (dow + (k + 1)) % 7 by omega])
            (by
              intro j hj
              have := hmin (j + 1) (by omega)
              rwa [show (dow + (j + 1)) % 7 = ((dow + 1) % 7 + j) % 7 by omega] at this)
          rw [hrec]
          omega

/-- A non-empty weekday mask is hit within 7 steps from any start. -/
theorem exists_hit (days : List Bool) (i : Nat) (hi : i < 7)
    (h : days.getD i false = true) (dow : Nat) (hdow : dow < 7) :
    ∃ k, k < 7 ∧ days.getD ((dow + k) % 7) false = true := by
  refine ⟨(i + 7 - dow) % 7, by omega, ?_⟩
  rwa [show (dow + (i + 7 - dow) % 7) % 7 = i by omega]

/-- With a non-empty mask, `scanLoop` with fuel 7 lands on the first
enabled weekday at or after `dow`. -/
theorem scan_minimal (days : List Bool) (dow : Nat) (hdow : dow < 7)
    (i : Nat) (hi : i < 7) (hen : days.getD i false = true) (st : Nat) :
    ∃ k, k < 7 ∧ scanLoop days dow st 7 = st + k ∧
      days.getD ((dow + k) % 7) false = true ∧
      ∀ j, j < k → days.getD ((dow + j) % 7) false = false := by
  obtain ⟨k, hk7, hkP⟩ := exists_hit days i hi hen dow hdow
  have hex : ∃ m, days.getD ((dow + m) % 7) false = true := ⟨k, hkP⟩
  have hk0P : days.getD ((dow + Nat.find hex) % 7) false = true := Nat.find_spec hex
  have hk0le : Nat.find hex ≤ k := Nat.find_min' hex hkP
  have hmin : ∀ j, j < Nat.find hex → days.getD ((dow + j) % 7) false = false := by
    intro j hj
    have := Nat.find_min hex hj
    exact Bool.eq_false_iff.mpr this
  exact ⟨Nat.find hex, by omega,
    scanLoop_hit days 7 dow st (Nat.find hex) hdow (by omega) hk0P hmin, hk0P, hmin⟩

/-- C1: for a non-empty weekday mask, the wall-clock resolver returns the
deadline combining the target time-of-day with the first day — starting
today, or tomorrow when the target time-of-day is at or before now's —
whose weekday (wrapping modulo 7, at most 7 days out) is enabled in the
mask. -/
theorem wallclock_resolution (days : List Bool) (timev : Nat) (now : DateTime)
    (i : Nat) (hi : i < 7) (hen : days.getD i false = true) :
    ∃ d : Nat,
      resolveWallclock days timev now = DateTime.mk (now.day + d) timev ∧
      (if timev ≤ now.tod then 1 else 0) ≤ d ∧
      d < (if timev ≤ now.tod then 1 else 0) + 7 ∧
      days.getD ((now.day + d) % 7) false = true ∧
      ∀ e, (if timev ≤ now.tod then 1 else 0) ≤ e → e < d →
        days.getD ((now.day + e) % 7) false = false := by
  by_cases hle : timev ≤ now.tod
  · obtain ⟨k, hk7, hscan, hhit, hmin⟩ :=
      scan_minimal days ((now.day % 7 + 1) % 7) (by omega) i hi hen 1
    refine ⟨1 + k, ?_, by simp [hle], by simp [hle]; omega, ?_, ?_⟩
    · unfold resolveWallclock DateTime.weekday
      dsimp only
      rw [if_pos hle, if_pos hle, hscan]
    · rwa [show (now.day + (1 + k)) % 7 = ((now.day % 7 + 1) % 7 + k) % 7 by omega]
    · intro e he1 hed
      rw [if_pos hle] at he1
      have := hmin (e - 1) (by omega)
      rwa [show ((now.day % 7 + 1) % 7 + (e - 1)) % 7 = (now.day + e) % 7 by omega]
        at this
  · obtain ⟨k, hk7, hscan, hhit, hmin⟩ :=
      scan_minimal days (now.day % 7) (by omega) i hi hen 0
    refine ⟨k, ?_, by simp [hle], by simp [hle]; omega, ?_, ?_⟩
    · unfold resolveWallclock DateTime.weekday
      dsimp only
      rw [if_neg hle, if_neg hle, hscan]
      rw [show (0 : Nat) + k = k by omega]
    · rwa [show (now.day + k) % 7 = (now.day % 7 + k) % 7 by omega]
    · intro e he1 hed
      have := hmin e (by omega)
      rwa [show (now.day % 7 + e) % 7 = (now.day + e) % 7 by omega] at this

/-- Witness for C1: the Wednesday-only mask, target 10:30, now Wednesday
11:00 (day 2, i.e. weekday 2). -/
theorem wallclock_resolution_witness :
    ∃ d : Nat,
      resolveWallclock [false, false, true, false, false, false, false] 37800
          (DateTime.mk 2 39600) = DateTime.mk (2 + d) 37800 ∧
      (if 37800 ≤ 39600 then 1 else 0) ≤ d ∧
      d < (if 37800 ≤ 39600 then 1 else 0) + 7 ∧
      [false, false, true, false, false, false, false].getD ((2 + d) % 7) false
        = true ∧
      ∀ e, (if 37800 ≤ 39600 then 1 else 0) ≤ e → e < d →
        [false, false, true, false, false, false, false].getD ((2 + e) % 7) false
          = false :=
  wallclock_resolution [false, false, true, false, false, false, false] 37800
    (DateTime.mk 2 39600) 2 (by decide) (by decide)

end Timesched

namespace Timesched

/-- A successful lookup bounds the index. -/
theorem lt_length_of_lookup {l : List Timer} {i : Nat} {t : Timer}
    (h : l[i]? = some t) : i < l.length := by
  by_contra hge
  rw [List.getElem?_eq_none (by omega)] at h
  exact Option.noConfusion h

/-- Reduction of `register` when both mask validation and `_invoke`
succeed. -/
theorem register_eq_ok (s : Sched) (now : DateTime) (b : Bool) (da : DaysArg)
    (spec : TimeSpec) (cb : List Cmd) (r : Bool) (ds : List Bool) (a : Arm)
    (hmk : mkDays da = .ok ds) (hin : invoke spec b ds now = .ok a) :
    register s now b da spec cb r =
      ({ timers := s.timers ++ [Timer.mk b ds spec true true cb r],
         queue := s.queue ++ [s.timers.length], count := s.count + 1 }, none) := by
  unfold register
  rw [hmk]
  dsimp only
  rw [hin]

/-- Reduction of `register` when mask validation fails. -/
theorem register_eq_err1 (s : Sched) (now : DateTime) (b : Bool) (da : DaysArg)
    (spec : TimeSpec) (cb : List Cmd) (r : Bool) (e : Err)
    (hmk : mkDays da = .error e) :
    register s now b da spec cb r = (s, some e) := by
  unfold register
  rw [hmk]

/-- Reduction of `register` when `_invoke` raises after the count was
already incremented. -/
theorem register_eq_err2 (s : Sched) (now : DateTime) (b : Bool) (da : DaysArg)
    (spec : TimeSpec) (cb : List Cmd) (r : Bool) (ds : List Bool) (e : Err)
    (hmk : mkDays da = .ok ds) (hin : invoke spec b ds now = .error e) :
    register s now b da spec cb r = ({ s with count := s.count + 1 }, some e) := by
  unfold register
  rw [hmk]
  dsimp only
  rw [hin]

/-- A timer that is inactive and has no pending queue entry. No scheduler
operation revives such a timer or re-enters it into the queue. -/
def Dead (s : Sched) (i : Nat) : Prop :=
  (∃ t, s.timers[i]? = some t ∧ t.active = false) ∧ i ∉ s.queue

theorem dead_register (s : Sched) (now : DateTime) (b : Bool) (da : DaysArg)
    (spec : TimeSpec) (cb : List Cmd) (r : Bool) (i : Nat) (hD : Dead s i) :
    Dead (register s now b da spec cb r).1 i := by
  obtain ⟨⟨t, ht, hta⟩, hq⟩ := hD
  have hlen := lt_length_of_lookup ht
  cases hmk : mkDays da with
  | error e => rw [register_eq_err1 s now b da spec cb r e hmk]; exact ⟨⟨t, ht, hta⟩, hq⟩
  | ok ds =>
      cases hin : invoke spec b ds now with
      | error e =>
          rw [register_eq_err2 s now b da spec cb r ds e hmk hin]
          exact ⟨⟨t, ht, hta⟩, hq⟩
      | ok a =>
          rw [register_eq_ok s now b da spec cb r ds a hmk hin]
          refine ⟨⟨t, ?_, hta⟩, ?_⟩
          · show (s.timers ++ [Timer.mk b ds spec true true cb r])[i]? = some t
            rw [List.getElem?_append_left hlen]
            exact ht
          · intro hmem
            rcases List.mem_append.mp hmem with h1 | h2
            · exact hq h1
            · have : i = s.timers.length := by simpa using h2
              omega

theorem dead_cancel (s : Sched) (tid i : Nat) (hD : Dead s i) :
    Dead (cancelTimer s tid).1 i := by
  obtain ⟨⟨t, ht, hta⟩, hq⟩ := hD
  cases htid : s.timers[tid]? with
  | none =>
      unfold cancelTimer
      rw [htid]
      exact ⟨⟨t, ht, hta⟩, hq⟩
  | some u =>
      rw [cancelTimer_eq s tid u htid]
      cases hu : u.active with
      | false =>
          rw [if_pos (by simp [hu])]
          exact ⟨⟨t, ht, hta⟩, hq⟩
      | true =>
          have hne : i ≠ tid := by
            intro he
            subst he
            rw [ht] at htid
            injection htid with huv
            rw [← huv, hta] at hu
            exact Bool.noConfusion hu
          rw [if_neg (by simp [hu])]
          cases he : u.eventid with
          | true =>
              rw [if_pos rfl]
              refine ⟨⟨t, ?_, hta⟩, ?_⟩
              · show ((setTimer s tid _).timers)[i]? = some t
                rw [setTimer, getElem?_set_ne hne]
                exact ht
              · intro hm
                exact hq (List.mem_of_mem_erase hm)
          | false =>
              rw [if_neg (by simp)]
              refine ⟨⟨t, ?_, hta⟩, hq⟩
              show ((setTimer s tid _).timers)[i]? = some t
              rw [setTimer, getElem?_set_ne hne]
              exact ht

theorem dead_cbClear (s : Sched) (tid i : Nat) (hD : Dead s i) :
    Dead (cbClear s tid) i := by
  obtain ⟨⟨t, ht, hta⟩, hq⟩ := hD
  cases htid : s.timers[tid]? with
  | none =>
      unfold cbClear
      rw [htid]
      exact ⟨⟨t, ht, hta⟩, hq⟩
  | some u =>
      rw [cbClear_eq s tid u htid]
      by_cases hne : tid = i
      · subst hne
        rw [ht] at htid
        injection htid with huv
        refine ⟨⟨{ u with eventid := false }, getElem?_set_self ht, ?_⟩, hq⟩
        show u.active = false
        exact huv ▸ hta
      · refine ⟨⟨t, ?_, hta⟩, hq⟩
        show ((setTimer s tid _).timers)[i]? = some t
        rw [setTimer, getElem?_set_ne (fun he => hne he.symm)]
        exact ht

theorem dead_cbFinish (now : DateTime) (s : Sched) (tid i : Nat) (hD : Dead s i) :
    Dead (cbFinish now s tid) i := by
  obtain ⟨⟨t, ht, hta⟩, hq⟩ := hD
  cases htid : s.timers[tid]? with
  | none =>
      unfold cbFinish
      rw [htid]
      exact ⟨⟨t, ht, hta⟩, hq⟩
  | some u =>
      rw [cbFinish_eq now s tid u htid]
      cases hu : u.active with
      | false =>
          rw [if_neg (by simp [hu])]
          exact ⟨⟨t, ht, hta⟩, hq⟩
      | true =>
          have hne : i ≠ tid := by
            intro he
            subst he
            rw [ht] at htid
            injection htid with huv
            rw [← huv, hta] at hu
            exact Bool.noConfusion hu
          rw [if_pos rfl]
          cases ho : u.oneshot with
          | true =>
              rw [if_pos rfl]
              refine ⟨⟨t, ?_, hta⟩, hq⟩
              show ((setTimer s tid _).timers)[i]? = some t
              rw [setTimer, getElem?_set_ne hne]
              exact ht
          | false =>
              rw [if_neg (by simp [ho])]
              cases hin : invoke u.spec false u.days now with
              | error e => exact ⟨⟨t, ht, hta⟩, hq⟩
              | ok a =>
                  refine ⟨⟨t, ?_, hta⟩, ?_⟩
                  · show ((setTimer s tid _).timers)[i]? = some t
                    rw [setTimer, getElem?_set_ne hne]
                    exact ht
                  · intro hm
                    rcases List.mem_append.mp hm with h1 | h2
                    · exact hq h1
                    · have : i = tid := by simpa using h2
                      exact hne this

theorem dead_execCmd (now : DateTime) (s : Sched) (c : Cmd) (i : Nat)
    (hD : Dead s i) : Dead (execCmd now s c) i := by
  cases c with
  | reg b da spec cb => exact dead_register s now b da spec cb false i hD
  | cancelCmd tid => exact dead_cancel s tid i hD

theorem dead_execCmds (now : DateTime) (cs : List Cmd) :
    ∀ (s : Sched) (i : Nat), Dead s i → Dead (execCmds now s cs) i := by
  induction cs with
  | nil => intro s i hD; exact hD
  | cons c cs ih =>
      intro s i hD
      exact ih (execCmd now s c) i (dead_execCmd now s c i hD)

theorem dead_fire (now : DateTime) (s : Sched) (tid i : Nat) (hD : Dead s i) :
    Dead (fire now s tid).1 i := by
  cases htid : s.timers[tid]? with
  | none =>
      unfold fire
      rw [htid]
      exact hD
  | some u =>
      rw [fire_eq now s tid u htid]
      have h2 := dead_execCmds now u.cbCmds (cbClear s tid) i
        (dead_cbClear s tid i hD)
      cases hr : u.cbRaises with
      | true => rw [if_pos rfl]; exact h2
      | false =>
          rw [if_neg (by simp)]
          exact dead_cbFinish now _ tid i h2

/-- A dead timer stays dead through the run loop and never appears in the
fired log. -/
theorem dead_run (now : DateTime) :
    ∀ (fuel : Nat) (s : Sched) (i : Nat), Dead s i →
      Dead (run now s fuel).1 i ∧ i ∉ (run now s fuel).2.1 := by
  intro fuel
  induction fuel with
  | zero => intro s i hD; exact ⟨hD, List.not_mem_nil i⟩
  | succ n ih =>
      intro s i hD
      unfold run
      cases hq : s.queue with
      | nil => exact ⟨hD, List.not_mem_nil i⟩
      | cons tid rest =>
          have hiq := hD.2
          rw [hq] at hiq
          have hne : i ≠ tid := fun he => hiq (he ▸ List.mem_cons_self tid rest)
          have hrest : i ∉ rest := fun hm => hiq (List.mem_cons_of_mem tid hm)
          have hD2 : Dead { s with queue := rest } i := ⟨hD.1, hrest⟩
          have hf := dead_fire now { s with queue := rest } tid i hD2
          dsimp only
          cases hb : (fire now { s with queue := rest } tid).2 with
          | true =>
              rw [if_pos rfl]
              exact ⟨hf, by simp [hne]⟩
          | false =>
              rw [if_neg (by simp)]
              obtain ⟨ihD, ihm⟩ := ih (fire now { s with queue := rest } tid).1 i hf
              refine ⟨ihD, ?_⟩
              intro hm
              rcases List.mem_cons.mp hm with h1 | h2
              · exact hne h1
              · exact ihm h2

/-- C7: cancelling an active, currently-queued timer marks it inactive,
decrements the scheduler count, removes its queue entry, and its user
callback is never invoked by any subsequent run of the scheduler (in
particular a not-yet-fired one-shot timer never fires). The
`count tid ≤ 1` hypothesis states the timer holds at most one queue
entry, which the scheduler maintains for every timer it creates. -/
theorem cancel_prevents_firing (s : Sched) (tid : Nat) (t : Timer)
    (h : s.timers[tid]? = some t) (ha : t.active = true) (he : t.eventid = true)
    (hc1 : s.queue.count tid ≤ 1) :
    (cancelTimer s tid).2 = none ∧
    ((cancelTimer s tid).1).timers[tid]? = some { t with active := false } ∧
    ((cancelTimer s tid).1).count = s.count - 1 ∧
    tid ∉ ((cancelTimer s tid).1).queue ∧
    ∀ now fuel, tid ∉ (run now (cancelTimer s tid).1 fuel).2.1 := by
  have hceq : cancelTimer s tid =
      ({ timers := s.timers.set tid { t with active := false },
         queue := s.queue.erase tid, count := s.count - 1 }, none) := by
    rw [cancelTimer_eq s tid t h]
    rw [if_neg (by simp [ha])]
    dsimp only
    rw [if_pos he]
    rfl
  have hqe : tid ∉ s.queue.erase tid := by
    intro hm
    have hcnt := List.count_erase_self tid s.queue
    have hpos := List.count_pos_iff.mpr hm
    omega
  have hDead : Dead (cancelTimer s tid).1 tid := by
    rw [hceq]
    exact ⟨⟨{ t with active := false }, getElem?_set_self h, rfl⟩, hqe⟩
  refine ⟨by rw [hceq], ?_, by rw [hceq], ?_, ?_⟩
  · rw [hceq]
    exact getElem?_set_self h
  · rw [hceq]
    exact hqe
  · intro now fuel
    exact (dead_run now fuel (cancelTimer s tid).1 tid hDead).2

/-- Witness for C7: a one-timer scheduler with that timer queued. -/
theorem cancel_prevents_firing_witness :
    (cancelTimer (Sched.mk [Timer.mk true [true] (.secs 5) true true [] false] [0] 1)
        0).2 = none ∧
    ((cancelTimer (Sched.mk [Timer.mk true [true] (.secs 5) true true [] false] [0] 1)
        0).1).timers[0]? =
      some { Timer.mk true [true] (.secs 5) true true [] false with active := false } ∧
    ((cancelTimer (Sched.mk [Timer.mk true [true] (.secs 5) true true [] false] [0] 1)
        0).1).count = (1 : Int) - 1 ∧
    0 ∉ ((cancelTimer (Sched.mk [Timer.mk true [true] (.secs 5) true true [] false]
        [0] 1) 0).1).queue ∧
    0 ∉ (run (DateTime.mk 0 0)
        (cancelTimer (Sched.mk [Timer.mk true [true] (.secs 5) true true [] false]
          [0] 1) 0).1 4).2.1 :=
  ⟨(cancel_prevents_firing
      (Sched.mk [Timer.mk true [true] (.secs 5) true true [] false] [0] 1) 0
      (Timer.mk true [true] (.secs 5) true true [] false) rfl rfl rfl
      (by decide)).1,
   (cancel_prevents_firing
      (Sched.mk [Timer.mk true [true] (.secs 5) true true [] false] [0] 1) 0
      (Timer.mk true [true] (.secs 5) true true [] false) rfl rfl rfl
      (by decide)).2.1,
   (cancel_prevents_firing
      (Sched.mk [Timer.mk true [true] (.secs 5) true true [] false] [0] 1) 0
      (Timer.mk true [true] (.secs 5) true true [] false) rfl rfl rfl
      (by decide)).2.2.1,
   (cancel_prevents_firing
      (Sched.mk [Timer.mk true [true] (.secs 5) true true [] false] [0] 1) 0
      (Timer.mk true [true] (.secs 5) true true [] false) rfl rfl rfl
      (by decide)).2.2.2.1,
   (cancel_prevents_firing
      (Sched.mk [Timer.mk true [true] (.secs 5) true true [] false] [0] 1) 0
      (Timer.mk true [true] (.secs 5) true true [] false) rfl rfl rfl
      (by decide)).2.2.2.2 (DateTime.mk 0 0) 4⟩

end Timesched
